import Mathlib

/-!
Verification of the ParkWise backend (parkwise-fastapi) against its
natural-language specification.  Each Python function named below is
shallowly embedded as an executable Lean definition: dictionaries become
functions into `Option`, SQL tables become lists of rows, wall-clock
instants become rationals (the unit is noted per module), and fallible
paths return explicit outcome constructors.  Theorems about the embedded
definitions settle the specification claims.
-/

namespace ParkWise

/-! ## Cache (backend/app/cache.py, class InMemoryCache)

Dictionaries `self._cache` and `self._expirations` are modelled as maps
`String → Option _`; `time.time()` is passed explicitly as a rational
`now` (seconds).  Deleting a key maps it to `none`.
-/

namespace Cache

/-- state of `InMemoryCache`: the value store `_cache` and the absolute
expiry map `_expirations`. -/
structure CacheState (V : Type) where
  cache : String → Option V
  expirations : String → Option ℚ

/-- point update of a string-keyed map. -/
def mapUpdate {A : Type} (m : String → Option A) (k : String) (v : Option A) :
    String → Option A :=
  fun x => if x = k then v else m x

/-- initial state of `InMemoryCache.__init__`: both dicts empty. -/
def initState (V : Type) : CacheState V :=
  ⟨fun _ => none, fun _ => none⟩

/-- `InMemoryCache.get`: if the key has an expiration in the past, evict it
from both dicts and return absence; otherwise return the stored value. -/
def get {V : Type} (s : CacheState V) (now : ℚ) (key : String) :
    Option V × CacheState V :=
  match s.expirations key with
  | some exp =>
    if now > exp then
      (none, ⟨mapUpdate s.cache key none, mapUpdate s.expirations key none⟩)
    else
      (s.cache key, s)
  | none => (s.cache key, s)

/-- `InMemoryCache.set`: store the value; a truthy `expire` records the
absolute expiry `now + expire`, otherwise any prior expiry is removed
(Python treats both `None` and `0` as falsy). -/
def set {V : Type} (s : CacheState V) (now : ℚ) (key : String) (value : V)
    (expire : Option ℚ) : CacheState V :=
  { cache := mapUpdate s.cache key (some value)
    expirations :=
      match expire with
      | some e =>
        if e ≠ 0 then mapUpdate s.expirations key (some (now + e))
        else mapUpdate s.expirations key none
      | none => mapUpdate s.expirations key none }

/-- `InMemoryCache.delete`: remove the key from both dicts. -/
def deleteKey {V : Type} (s : CacheState V) (key : String) : CacheState V :=
  ⟨mapUpdate s.cache key none, mapUpdate s.expirations key none⟩

/-- `InMemoryCache.exists`: same lazy-eviction check as `get`, returning
presence as a boolean. -/
def existsKey {V : Type} (s : CacheState V) (now : ℚ) (key : String) :
    Bool × CacheState V :=
  match s.expirations key with
  | some exp =>
    if now > exp then
      (false, ⟨mapUpdate s.cache key none, mapUpdate s.expirations key none⟩)
    else
      ((s.cache key).isSome, s)
  | none => ((s.cache key).isSome, s)

/-- `InMemoryCache.expire`: record an expiry for a key already present in
the value store; absent keys are left untouched. -/
def expireKey {V : Type} (s : CacheState V) (now : ℚ) (key : String) (ttl : ℚ) :
    CacheState V :=
  if (s.cache key).isSome then
    { s with expirations := mapUpdate s.expirations key (some (now + ttl)) }
  else s

/-- contiguous-sublist test on character lists. -/
def listHasSub (p : List Char) : List Char → Bool
  | [] => p.isEmpty
  | c :: rest => p.isPrefixOf (c :: rest) || listHasSub p rest

/-- substring test used by `clear_pattern` (`pattern in key`). -/
def strContains (pattern key : String) : Bool :=
  listHasSub pattern.data key.data

/-- `InMemoryCache.clear_pattern`: delete every key of the value store that
contains the pattern, from both dicts.  The candidate set is drawn from the
value-store keys, so an expiration entry is removed only when its key is
also in the value store. -/
def clearPattern {V : Type} (s : CacheState V) (pattern : String) : CacheState V :=
  { cache := fun k => if strContains pattern k then none else s.cache k
    expirations := fun k =>
      if strContains pattern k ∧ (s.cache k).isSome then none else s.expirations k }

/-- one public operation of `InMemoryCache`, tagged with its arguments. -/
inductive CacheOp (V : Type) where
  | setOp (key : String) (value : V) (expire : Option ℚ)
  | getOp (key : String)
  | delOp (key : String)
  | hasOp (key : String)
  | expOp (key : String) (ttl : ℚ)
  | clrOp (pattern : String)

/-- state transition of one timed cache operation. -/
def step {V : Type} (s : CacheState V) : ℚ × CacheOp V → CacheState V
  | (now, .setOp k v e) => set s now k v e
  | (now, .getOp k) => (get s now k).2
  | (_, .delOp k) => deleteKey s k
  | (now, .hasOp k) => (existsKey s now k).2
  | (now, .expOp k ttl) => expireKey s now k ttl
  | (_, .clrOp p) => clearPattern s p

/-- state reached by a sequence of timed cache operations from the empty
cache. -/
def run {V : Type} (ops : List (ℚ × CacheOp V)) : CacheState V :=
  ops.foldl step (initState V)

/-- invariant: every key of the expiration map is present in the value
store. -/
def ExpirationsSub {V : Type} (s : CacheState V) : Prop :=
  ∀ k, (s.expirations k).isSome → (s.cache k).isSome

end Cache

/-! ## Booking service (backend/app/routes/bookings.py)

The per-slot asyncio locks are modelled as a map `String → Bool` (held or
free); `datetime.utcnow()` is an explicit rational `now` measured in
minutes, so `timedelta(minutes=m)` is addition of `m`.  The database is a
record of the three tables the handler touches.  The freshly generated
UUID is an explicit argument `newId`.
-/

namespace Bookings

/-- request body `HoldRequest` (schemas.py): slot, hold minutes (validated
to 1–60, default 2), optional user. -/
structure HoldRequest where
  slot_id : String
  hold_minutes : ℚ
  user_id : Option String

/-- the columns of a `slot_status` row read by the handler. -/
structure SlotStatusRow where
  occupied : Bool
  reserved_until : Option ℚ
deriving DecidableEq

/-- a `bookings` row as inserted by the handler. -/
structure BookingRow where
  id : String
  user_id : Option String
  slot_id : String
  status : String
  hold_until : ℚ
deriving DecidableEq

/-- an `audit_logs` row as appended by `log_booking_create` / `log_audit`. -/
structure AuditRow where
  user_id : Option String
  action : String
  resource_type : String
  resource_id : String
deriving DecidableEq

/-- the tables touched by the hold handler. -/
structure DB where
  slot_status : List (String × SlotStatusRow)
  bookings : List BookingRow
  audit_logs : List AuditRow
deriving DecidableEq

/-- map of per-slot locks (`_locks`): true means the asyncio lock for that
slot is currently held. -/
def LockMap : Type := String → Bool

/-- `_acquire_slot_lock`: fail (returning `none`) if the slot lock is held,
otherwise acquire it. -/
def acquireSlotLock (locks : LockMap) (slot_id : String) : Option LockMap :=
  if locks slot_id then none
  else some (fun k => if k = slot_id then true else locks k)

/-- `_release_slot_lock`: release the slot lock (the subsequent dict
cleanup leaves the slot observably unlocked either way). -/
def releaseSlotLock (locks : LockMap) (slot_id : String) : LockMap :=
  fun k => if k = slot_id then false else locks k

/-- the `SELECT * FROM slot_status WHERE slot_id = :slot_id ... fetchone()`
read. -/
def lookupStatus (db : DB) (slot_id : String) : Option SlotStatusRow :=
  (db.slot_status.find? (fun p => p.1 = slot_id)).map (·.2)

/-- condition `row.reserved_until and row.reserved_until > now`. -/
def reservedInFuture (row : SlotStatusRow) (now : ℚ) : Bool :=
  match row.reserved_until with
  | some r => decide (now < r)
  | none => false

/-- the `UPDATE slot_status SET reserved_until = :hold_until WHERE slot_id
= :slot_id` write. -/
def updateReserved (l : List (String × SlotStatusRow)) (slot_id : String)
    (hold_until : ℚ) : List (String × SlotStatusRow) :=
  l.map fun p =>
    if p.1 = slot_id then (p.1, { p.2 with reserved_until := some hold_until }) else p

/-- outcome of the hold handler, by HTTP status: 429 try-again, 404 unknown
slot, 409 reserved, 409 occupied, or 200 with booking id and hold-until. -/
inductive HoldOutcome where
  | tryAgain
  | slotNotFound
  | alreadyReserved
  | occupiedConflict
  | success (booking_id : String) (hold_until : ℚ)
deriving DecidableEq

/-- `hold_slot` (routes/bookings.py): acquire the per-slot lock fail-fast,
run the transaction (status read, conflict checks, booking insert,
reservation update), audit-log when a user id is present, and release the
lock in the `finally` block on every path.  Returns the outcome, the
database after the handler, and the lock map after the handler. -/
def hold_slot (locks : LockMap) (db : DB) (now : ℚ) (req : HoldRequest)
    (newId : String) : HoldOutcome × DB × LockMap :=
  match acquireSlotLock locks req.slot_id with
  | none => (.tryAgain, db, locks)
  | some locks1 =>
    let body : HoldOutcome × DB :=
      match lookupStatus db req.slot_id with
      | none => (.slotNotFound, db)
      | some row =>
        if reservedInFuture row now then (.alreadyReserved, db)
        else if row.occupied then (.occupiedConflict, db)
        else
          let hold_until := now + req.hold_minutes
          let db1 : DB :=
            { slot_status := updateReserved db.slot_status req.slot_id hold_until
              bookings := db.bookings ++
                [⟨newId, req.user_id, req.slot_id, "holding", hold_until⟩]
              audit_logs := db.audit_logs }
          let db2 : DB :=
            match req.user_id with
            | some u =>
              { db1 with audit_logs := db1.audit_logs ++
                  [⟨some u, "create_booking", "booking", newId⟩] }
            | none => db1
          (.success newId hold_until, db2)
    (body.1, body.2, releaseSlotLock locks1 req.slot_id)

end Bookings

/-! ## Edge-device API (backend/app/routes/edge.py)

Request headers are an `Option String` for `X-API-Key`; responses are a
payload-or-HTTP-error sum.  The two read endpoints take the header but,
as in the source, never consult it: they declare no API-key dependency.
Only the status-push write calls `check_edge_api_key`.
-/

namespace Edge

/-- result of `check_edge_api_key`: missing/empty key (HTTP 401), wrong key
(HTTP 403), or authorized. -/
inductive EdgeAuth where
  | missingKey
  | invalidKey
  | authorized
deriving DecidableEq

/-- `check_edge_api_key`: a missing or falsy (empty) header fails 401, a
header differing from the configured edge secret fails 403. -/
def check_edge_api_key (header : Option String) (secret : String) : EdgeAuth :=
  match header with
  | none => .missingKey
  | some k => if k = "" then .missingKey else if k ≠ secret then .invalidKey else .authorized

/-- a `slots` row joined against `slot_status` by the edge read queries. -/
structure SlotRow where
  slot_id : String
  occupied : Bool
  confidence : ℚ
deriving DecidableEq

/-- the `slot_status` columns written by the edge status push. -/
structure EdgeStatus where
  occupied : Bool
  confidence : ℚ
  vehicle_type : String
  last_seen : ℚ
deriving DecidableEq

/-- database visible to the edge endpoints: the `slots` table (ids) and the
`slot_status` table. -/
structure EdgeDB where
  slots : List String
  slot_status : List (String × EdgeStatus)
deriving DecidableEq

/-- response of an edge endpoint: payload or HTTP error status. -/
inductive Resp (A : Type) where
  | ok (a : A)
  | err (status : ℕ)
deriving DecidableEq

/-- the LEFT JOIN of `slots` with `slot_status`, coalescing a missing
status row to `occupied=false, confidence=1.0`; a stored falsy (zero)
confidence is also rendered as 1.0 by the response builder. -/
def queryAllSlots (db : EdgeDB) : List SlotRow :=
  db.slots.map fun sid =>
    match (db.slot_status.find? (fun p => p.1 = sid)).map (·.2) with
    | some st => ⟨sid, st.occupied, if st.confidence = 0 then 1 else st.confidence⟩
    | none => ⟨sid, false, 1⟩

/-- `get_all_slots_edge`: cache-first list read.  The handler declares no
API-key dependency, so the header is ignored.  Returns the response and
the slot-list cache afterwards (a truthy cached list is served as is; an
empty or absent cache triggers the query, whose result is cached). -/
def get_all_slots_edge (header : Option String) (cached : Option (List SlotRow))
    (db : EdgeDB) : Resp (List SlotRow) × Option (List SlotRow) :=
  match header, cached with
  | _, some l =>
    if ¬ l.isEmpty then (.ok l, some l)
    else (.ok (queryAllSlots db), some (queryAllSlots db))
  | _, none => (.ok (queryAllSlots db), some (queryAllSlots db))

/-- `get_slot_by_id_edge`: cache-first single-slot read, 404 when the slot
is unknown; again no API-key dependency.  Returns the response and the
per-slot cache afterwards. -/
def get_slot_by_id_edge (header : Option String) (slot_id : String)
    (cached : Option SlotRow) (db : EdgeDB) : Resp SlotRow × Option SlotRow :=
  match header, cached with
  | _, some c => (.ok c, some c)
  | _, none =>
    match (queryAllSlots db).find? (fun r => r.slot_id = slot_id) with
    | none => (.err 404, none)
    | some row => (.ok row, some row)

/-- parsed JSON body of the edge status push, with the defaults
`confidence=1.0` and `vehicle_type="unknown"` applied by `body.get`. -/
structure UpdateBody where
  occupied : Option Bool
  confidence : ℚ
  vehicle_type : String
deriving DecidableEq

/-- the `INSERT ... ON CONFLICT (slot_id) DO UPDATE` upsert of
`slot_status`. -/
def upsertStatus (l : List (String × EdgeStatus)) (slot_id : String)
    (st : EdgeStatus) : List (String × EdgeStatus) :=
  if (l.find? (fun p => p.1 = slot_id)).isSome then
    l.map fun p => if p.1 = slot_id then (p.1, st) else p
  else l ++ [(slot_id, st)]

/-- `update_slot_status_edge`: the only edge endpoint that calls
`check_edge_api_key` (before the try block); a missing `occupied` field
fails 400; otherwise the status row is upserted. -/
def update_slot_status_edge (header : Option String) (secret : String)
    (slot_id : String) (body : UpdateBody) (db : EdgeDB) (now : ℚ) :
    Resp String × EdgeDB :=
  match check_edge_api_key header secret with
  | .missingKey => (.err 401, db)
  | .invalidKey => (.err 403, db)
  | .authorized =>
    match body.occupied with
    | none => (.err 400, db)
    | some occ =>
      (.ok slot_id,
        { db with slot_status :=
            upsertStatus db.slot_status slot_id ⟨occ, body.confidence, body.vehicle_type, now⟩ })

end Edge

/-! ## Data retention (backend/app/backup.py, class DataRetentionManager)

Absolute time is a rational measured in days, so `timedelta(days=d)` is
subtraction of `d`.  A SQL table carries its column list (taken from
models.py) together with its rows, each row an association list from
column name to a rational value; a DELETE whose WHERE clause references a
column the table does not define raises, which the manager catches and
reports as zero rows deleted.
-/

namespace Retention

/-- a SQL table: declared columns and rows (column-name/value pairs). -/
structure SqlTable where
  columns : List String
  rows : List (List (String × ℚ))
deriving DecidableEq

/-- value of a column in a row, `none` when absent (SQL NULL). -/
def rowVal (r : List (String × ℚ)) (c : String) : Option ℚ :=
  (r.find? (fun p => p.1 = c)).map (·.2)

/-- `DELETE FROM t WHERE created_at < :cutoff_date`: errors when the table
has no `created_at` column; otherwise removes matching rows (a NULL value
never satisfies the comparison) and reports how many were removed. -/
def deleteOldByCreatedAt (t : SqlTable) (cutoff : ℚ) : Except String (SqlTable × ℕ) :=
  if "created_at" ∈ t.columns then
    let kept := t.rows.filter fun r =>
      match rowVal r "created_at" with
      | some v => ¬ (v < cutoff)
      | none => true
    .ok ({ t with rows := kept }, t.rows.length - kept.length)
  else
    .error "no such column: created_at"

/-- columns of `slot_events` (models.py). -/
def slot_events_columns : List String :=
  ["id", "slot_id", "event_type", "meta", "license_plate", "created_at", "source"]

/-- columns of `audit_logs` (models.py). -/
def audit_logs_columns : List String :=
  ["id", "user_id", "action", "resource_type", "resource_id", "details",
   "ip_address", "user_agent", "created_at"]

/-- columns of `notifications` (models.py): the table defines `sent_at` and
no `created_at`. -/
def notifications_columns : List String :=
  ["id", "user_id", "type", "message", "is_read", "sent_at"]

/-- the three governed tables. -/
structure RetentionDB where
  slot_events : SqlTable
  audit_logs : SqlTable
  notifications : SqlTable
deriving DecidableEq

/-- the fixed `retention_policies` map: days kept per table. -/
def retention_policies : List (String × ℚ) :=
  [("slot_events", 90), ("audit_logs", 365), ("notifications", 30)]

/-- one loop iteration of `apply_retention_policies`: attempt the delete
with cutoff `now - days`; on failure the table is untouched and 0 is
reported. -/
def applyPolicy (t : SqlTable) (now days : ℚ) : SqlTable × ℕ :=
  match deleteOldByCreatedAt t (now - days) with
  | .ok (t2, n) => (t2, n)
  | .error _ => (t, 0)

/-- `DataRetentionManager.apply_retention_policies`: apply the three fixed
policies in order, returning the resulting tables and the per-table
deleted-row counts. -/
def apply_retention_policies (db : RetentionDB) (now : ℚ) :
    RetentionDB × List (String × ℕ) :=
  let se := applyPolicy db.slot_events now 90
  let al := applyPolicy db.audit_logs now 365
  let no := applyPolicy db.notifications now 30
  (⟨se.1, al.1, no.1⟩,
   [("slot_events", se.2), ("audit_logs", al.2), ("notifications", no.2)])

end Retention

/-! ## Violation recording (backend/app/violation_detector.py)

The `violations` table is a list of rows; `datetime.utcnow()` is a
rational `now`; the generated UUID is the explicit `newId`.  Metadata is
kept abstract as an optional string.
-/

namespace Violations

/-- the columns of a `violations` row that `record_violation` reads or
writes. -/
structure ViolationRow where
  id : String
  violation_type : String
  slot_id : String
  severity : String
  status : String
  detected_at : ℚ
  updated_at : ℚ
  metadata : Option String
deriving DecidableEq

/-- an `audit_logs` entry as appended for a new violation. -/
structure ViolationAuditRow where
  action : String
  resource_type : String
  resource_id : String
deriving DecidableEq

/-- the tables touched by `record_violation`. -/
structure ViolDB where
  violations : List ViolationRow
  audit_logs : List ViolationAuditRow
deriving DecidableEq

/-- the violation candidate passed in (`violation_dict`). -/
structure ViolationDict where
  violation_type : String
  slot_id : String
  severity : String
  metadata : Option String
deriving DecidableEq

/-- result summary returned by `record_violation`. -/
structure RecordResult where
  id : String
  is_new : Bool
deriving DecidableEq

/-- the match predicate of the dedup SELECT: same slot, same type, status
active. -/
def activeMatch (v : ViolationDict) (r : ViolationRow) : Bool :=
  r.slot_id = v.slot_id ∧ r.violation_type = v.violation_type ∧ r.status = "active"

/-- `record_violation`: if an active row with the same slot and type
exists, refresh only its `detected_at`/`updated_at`/`metadata` and report
not-new; otherwise insert one new active row, append an audit-log record,
and report new. -/
def record_violation (db : ViolDB) (v : ViolationDict) (now : ℚ) (newId : String) :
    ViolDB × RecordResult :=
  match db.violations.find? (activeMatch v) with
  | some existing =>
    ({ db with violations := db.violations.map fun r =>
        if r.id = existing.id then
          { r with detected_at := now, updated_at := now, metadata := v.metadata }
        else r },
     ⟨existing.id, false⟩)
  | none =>
    (⟨db.violations ++
        [⟨newId, v.violation_type, v.slot_id, v.severity, "active", now, now, v.metadata⟩],
      db.audit_logs ++ [⟨"violation_detected", "violation", newId⟩]⟩,
     ⟨newId, true⟩)

/-- count of active rows for a (slot, type) pair. -/
def activeCount (l : List ViolationRow) (slot ty : String) : ℕ :=
  (l.filter fun r => r.slot_id = slot ∧ r.violation_type = ty ∧ r.status = "active").length

/-- invariant: at most one active violation per (slot, type) pair. -/
def AtMostOneActive (l : List ViolationRow) : Prop :=
  ∀ slot ty, activeCount l slot ty ≤ 1

end Violations

/-! ## Occupancy analytics (backend/app/occupancy_analytics.py)

Events arriving from the window query are already filtered to the slot and
window and sorted ascending by `created_at`; absolute time is a rational
measured in minutes, so `(t2 - t1).total_seconds() / 60` is `t2 - t1`.
-/

namespace Occupancy

/-- a `slot_events` row as consumed by the scan. -/
structure SlotEvent where
  event_type : String
  created_at : ℚ
deriving DecidableEq

/-- the entry-class event types. -/
def entry_event_types : List String := ["vehicle_detected", "entry", "occupied"]

/-- the exit-class event types. -/
def exit_event_types : List String := ["vehicle_left", "exit", "vacant"]

/-- loop body of the scan.  The accumulator is
`(occupied_minutes, is_occupied, last_change_time)`. -/
def occStep (acc : ℚ × Bool × ℚ) (e : SlotEvent) : ℚ × Bool × ℚ :=
  if e.event_type ∈ entry_event_types then
    if ¬ acc.2.1 then (acc.1, true, e.created_at) else acc
  else if e.event_type ∈ exit_event_types then
    if acc.2.1 then (acc.1 + (e.created_at - acc.2.2), false, e.created_at) else acc
  else acc

/-- `calculate_slot_occupancy_percentage`: scan the window events starting
vacant, close a still-open interval at the window end, and clamp the
percentage to [0,100]; no events yields 0. -/
def calculate_slot_occupancy_percentage (events : List SlotEvent)
    (start_time end_time : ℚ) : ℚ :=
  if events.isEmpty then 0
  else
    let total_minutes := end_time - start_time
    let fin := events.foldl occStep (0, false, start_time)
    let occupied_minutes := if fin.2.1 then fin.1 + (end_time - fin.2.2) else fin.1
    if 0 < total_minutes then min 100 (max 0 (occupied_minutes / total_minutes * 100))
    else 0

/-- occupied minutes as the specification describes them, by structural
recursion over the chronological events: an entry-class event opens an
occupied interval only if none is open, an exit-class event closes an open
interval and accumulates its minutes, and an interval still open at the
window end accumulates the remainder. -/
def specOccupiedMinutes (end_time : ℚ) : List SlotEvent → Bool → ℚ → ℚ
  | [], isOpen, openedAt => if isOpen then end_time - openedAt else 0
  | e :: rest, isOpen, openedAt =>
    if e.event_type ∈ entry_event_types then
      if isOpen then specOccupiedMinutes end_time rest true openedAt
      else specOccupiedMinutes end_time rest true e.created_at
    else if e.event_type ∈ exit_event_types then
      if isOpen then
        (e.created_at - openedAt) + specOccupiedMinutes end_time rest false e.created_at
      else specOccupiedMinutes end_time rest false openedAt
    else specOccupiedMinutes end_time rest isOpen openedAt

/-- occupancy percentage as the specification describes it: accumulated
occupied minutes over total window minutes times 100, clamped to [0,100],
and exactly 0 for a window with no events. -/
def specOccupancyPercentage (events : List SlotEvent) (start_time end_time : ℚ) : ℚ :=
  if events = [] then 0
  else
    min 100 (max 0
      (specOccupiedMinutes end_time events false start_time / (end_time - start_time) * 100))

end Occupancy

/-! ## License-plate pipeline (backend/app/anpr_processor.py)

The OCR engine output is abstracted as a list of `(recognized text,
confidence)` pairs (the bounding boxes of `readtext` are not consulted);
image preprocessing and plate-region localization operate on pixels and
stay outside the embedding.  Characters are ASCII, matching the regex
`[^A-Z0-9]` of the source.
-/

namespace Anpr

/-- a character kept by the `[^A-Z0-9]` strip. -/
def isPlateChar (c : Char) : Bool :=
  (decide (('A' : Char) ≤ c) && decide (c ≤ ('Z' : Char))) ||
  (decide (('0' : Char) ≤ c) && decide (c ≤ ('9' : Char)))

/-- normalization of the recognized text: uppercase, then strip every
character outside A–Z0–9. -/
def normalizePlate (s : String) : String :=
  ⟨(s.data.map Char.toUpper).filter isPlateChar⟩

/-- `max(high_conf_results, key=...)`: the first element attaining the
maximal confidence (Python max keeps the current element on ties). -/
def pickBest : List (String × ℚ) → String × ℚ
  | [] => ("", 0)
  | r :: rest => rest.foldl (fun acc x => if acc.2 < x.2 then x else acc) r

/-- `extract_plate_text` from the OCR results onward: keep results with
confidence above 0.5, pick the highest-confidence one, normalize its text,
and reject texts shorter than 4 characters. -/
def extract_plate_text (results : List (String × ℚ)) : Option (String × ℚ) :=
  if results.isEmpty then none
  else
    let high := results.filter fun r => (1 : ℚ)/2 < r.2
    if high.isEmpty then none
    else
      let best := pickBest high
      let t := normalizePlate best.1
      if t.length < 4 then none else some (t, best.2)

/-- `validate_plate_format`: nonempty (Python string truthiness), 4–10
characters, alphanumeric, not purely numeric, not a single character. -/
def validate_plate_format (s : String) : Bool :=
  if s.length = 0 then false
  else if s.length < 4 || 10 < s.length then false
  else if ¬ s.data.all Char.isAlphanum then false
  else if s.data.all Char.isDigit then false
  else if s.length = 1 then false
  else true

/-- the plate-handling tail of `process_vehicle_for_plate`: no OCR text
means no plate; a structurally invalid plate is still returned with its
confidence multiplied by 0.7. -/
def process_vehicle_for_plate (results : List (String × ℚ)) : Option (String × ℚ) :=
  match extract_plate_text results with
  | none => none
  | some (t, c) =>
    if validate_plate_format t then some (t, c) else some (t, c * (7/10))

end Anpr

/-! ## CV occupancy decision (backend/app/cv_processor.py)

Pixel coordinates and confidences are rationals.  Detections are the
survivors of `detect_vehicles_in_frame`, which keeps only the four vehicle
classes with confidence above 0.5.
-/

namespace CV

/-- a YOLO detection surviving the class/confidence filter. -/
structure Detection where
  class_id : ℕ
  confidence : ℚ
  center_x : ℚ
  center_y : ℚ
deriving DecidableEq

/-- the class-id to label map `{2: car, 3: motorcycle, 5: bus, 7: truck}`
with default "vehicle". -/
def vehicle_type_of (cls : ℕ) : String :=
  if cls = 2 then "car"
  else if cls = 3 then "motorcycle"
  else if cls = 5 then "bus"
  else if cls = 7 then "truck"
  else "vehicle"

/-- one edge step of `_is_point_in_polygon`.  Inside the guarded branch the
window conditions force the edge to be non-horizontal, so the crossing
abscissa of the source is always freshly assigned before it is read. -/
def rayStep (x y : ℚ) (inside : Bool) (p1 p2 : ℚ × ℚ) : Bool :=
  if y > min p1.2 p2.2 ∧ y ≤ max p1.2 p2.2 ∧ x ≤ max p1.1 p2.1 then
    let xinters := (y - p1.2) * (p2.1 - p1.1) / (p2.2 - p1.2) + p1.1
    if p1.1 = p2.1 ∨ x ≤ xinters then !inside else inside
  else inside

/-- `_is_point_in_polygon`: ray casting over the closed edge cycle
`(p0,p1), (p1,p2), ..., (p_last,p0)`. -/
def is_point_in_polygon (x y : ℚ) (polygon : List (ℚ × ℚ)) : Bool :=
  match polygon with
  | [] => false
  | p0 :: rest =>
    ((p0 :: rest).zip (rest ++ [p0])).foldl
      (fun inside e => rayStep x y inside e.1 e.2) false

/-- spot geometry: a polygon (`spot_config['polygon']`) or an axis-aligned
rectangle (`spot_config['coordinates']` as x, y, w, h). -/
inductive SpotShape where
  | poly (points : List (ℚ × ℚ))
  | rect (x y w h : ℚ)

/-- membership test applied to a detection center: point-in-polygon for a
polygon spot, direct containment for a rectangle spot. -/
def inSpot (shape : SpotShape) (d : Detection) : Bool :=
  match shape with
  | .poly pts => is_point_in_polygon d.center_x d.center_y pts
  | .rect x y w h =>
    decide (x ≤ d.center_x ∧ d.center_x ≤ x + w ∧ y ≤ d.center_y ∧ d.center_y ≤ y + h)

/-- loop body shared by the two branches of `is_parking_spot_occupied`:
an in-spot detection whose confidence beats the running maximum marks the
spot occupied and takes over confidence and vehicle-type label. -/
def spotStep (member : Detection → Bool) (acc : Bool × ℚ × String) (d : Detection) :
    Bool × ℚ × String :=
  if member d ∧ acc.2.1 < d.confidence then
    (true, d.confidence, vehicle_type_of d.class_id)
  else acc

/-- `is_parking_spot_occupied`: fold over the detections starting from
`(occupied=false, highest_confidence=0.0, vehicle_type="unknown")`. -/
def is_parking_spot_occupied (shape : SpotShape) (detections : List Detection) :
    Bool × ℚ × String :=
  detections.foldl (spotStep (inSpot shape)) (false, 0, "unknown")

/-- the vacant-spot confidence heuristic of `process_parking_image`:
`max(0.8, 1.0 - 0.05 * len(detections))`. -/
def vacant_confidence (n : ℕ) : ℚ :=
  max (4/5) (1 - (1/20) * n)

/-- occupancy decision of `process_parking_image` (before response
rounding): the fold result, with the vacant-branch confidence replaced by
the heuristic. -/
def process_parking_occupancy (shape : SpotShape) (detections : List Detection) :
    Bool × ℚ × String :=
  let r := is_parking_spot_occupied shape detections
  if r.1 then r else (false, vacant_confidence detections.length, r.2.2)

end CV

/-! ## Theorems -/

namespace Cache

theorem mapUpdate_same {A : Type} (m : String → Option A) (k : String) (v : Option A) :
    mapUpdate m k v k = v := by
  simp [mapUpdate]

theorem mapUpdate_other {A : Type} (m : String → Option A) (k x : String) (v : Option A)
    (h : x ≠ k) : mapUpdate m k v x = m x := by
  simp [mapUpdate, h]

/-- C8: a key set with a positive TTL is present via get and exists at the
set instant; strictly after the recorded expiry both get and exists report
absence and remove the entry from both maps without a delete call; and a
set with no TTL clears any previously recorded expiry. -/
theorem C8_cache_ttl_lifecycle {V : Type} (s : CacheState V) (now now2 : ℚ)
    (k : String) (v : V) (t : ℚ) (ht : 0 < t) (h2 : now + t < now2) :
    (get (set s now k v (some t)) now k).1 = some v ∧
    (existsKey (set s now k v (some t)) now k).1 = true ∧
    (get (set s now k v (some t)) now2 k).1 = none ∧
    (get (set s now k v (some t)) now2 k).2.cache k = none ∧
    (get (set s now k v (some t)) now2 k).2.expirations k = none ∧
    (existsKey (set s now k v (some t)) now2 k).1 = false ∧
    (existsKey (set s now k v (some t)) now2 k).2.cache k = none ∧
    (existsKey (set s now k v (some t)) now2 k).2.expirations k = none ∧
    (set s now k v none).expirations k = none := by
  have hne : t ≠ 0 := ne_of_gt ht
  have hnow : ¬ (now > now + t) := by linarith
  have hnow2 : now2 > now + t := h2
  simp [get, set, existsKey, mapUpdate, hne, hnow, hnow2]

/-- closed instance of the C8 lifecycle at concrete inputs. -/
theorem C8_cache_ttl_lifecycle_witness :
    (get (set (initState ℕ) 0 "k" 7 (some 1)) 0 "k").1 = some 7 ∧
    (existsKey (set (initState ℕ) 0 "k" 7 (some 1)) 0 "k").1 = true ∧
    (get (set (initState ℕ) 0 "k" 7 (some 1)) 2 "k").1 = none ∧
    (get (set (initState ℕ) 0 "k" 7 (some 1)) 2 "k").2.cache "k" = none ∧
    (get (set (initState ℕ) 0 "k" 7 (some 1)) 2 "k").2.expirations "k" = none ∧
    (existsKey (set (initState ℕ) 0 "k" 7 (some 1)) 2 "k").1 = false ∧
    (existsKey (set (initState ℕ) 0 "k" 7 (some 1)) 2 "k").2.cache "k" = none ∧
    (existsKey (set (initState ℕ) 0 "k" 7 (some 1)) 2 "k").2.expirations "k" = none ∧
    (set (initState ℕ) 0 "k" 7 none).expirations "k" = none :=
  C8_cache_ttl_lifecycle (initState ℕ) 0 2 "k" 7 1 (by norm_num) (by norm_num)

theorem stepPreserves {V : Type} (s : CacheState V) (op : ℚ × CacheOp V)
    (h : ExpirationsSub s) : ExpirationsSub (step s op) := by
  obtain ⟨now, op⟩ := op
  cases op with
  | setOp k v e =>
    intro x hx
    by_cases hk : x = k
    · subst hk; simp [step, set, mapUpdate]
    · simp only [step, set, mapUpdate] at hx ⊢
      cases e with
      | none => simp [mapUpdate, hk] at hx ⊢; exact h x hx
      | some q =>
        by_cases hq : q ≠ 0 <;> simp [mapUpdate, hk, hq] at hx ⊢ <;> exact h x hx
  | getOp k =>
    intro x hx
    simp only [step, get] at hx ⊢
    cases hexp : s.expirations k with
    | none => simp [hexp] at hx ⊢; exact h x hx
    | some exp =>
      by_cases hlt : now > exp
      · simp [hexp, hlt] at hx ⊢
        by_cases hk : x = k
        · subst hk; simp [mapUpdate] at hx
        · simp [mapUpdate, hk] at hx ⊢; exact h x hx
      · simp [hexp, hlt] at hx ⊢; exact h x hx
  | delOp k =>
    intro x hx
    simp only [step, deleteKey] at hx ⊢
    by_cases hk : x = k
    · subst hk; simp [mapUpdate] at hx
    · simp [mapUpdate, hk] at hx ⊢; exact h x hx
  | hasOp k =>
    intro x hx
    simp only [step, existsKey] at hx ⊢
    cases hexp : s.expirations k with
    | none => simp [hexp] at hx ⊢; exact h x hx
    | some exp =>
      by_cases hlt : now > exp
      · simp [hexp, hlt] at hx ⊢
        by_cases hk : x = k
        · subst hk; simp [mapUpdate] at hx
        · simp [mapUpdate, hk] at hx ⊢; exact h x hx
      · simp [hexp, hlt] at hx ⊢; exact h x hx
  | expOp k ttl =>
    intro x hx
    simp only [step, expireKey] at hx ⊢
    by_cases hc : (s.cache k).isSome
    · simp [hc] at hx ⊢
      by_cases hk : x = k
      · subst hk; exact hc
      · simp [mapUpdate, hk] at hx; exact h x hx
    · simp [hc] at hx ⊢; exact h x hx
  | clrOp p =>
    intro x hx
    simp only [step, clearPattern] at hx ⊢
    by_cases hm : strContains p x
    · have hcx : (s.cache x).isSome := h x (by
        by_cases hcs : (s.cache x).isSome
        · exact absurd hx (by simp [hm, hcs])
        · simp [hm, hcs] at hx; exact hx)
      simp [hm, hcx] at hx
    · simp [hm] at hx ⊢
      exact h x hx

theorem runPreserves {V : Type} (ops : List (ℚ × CacheOp V)) (s : CacheState V)
    (h : ExpirationsSub s) : ExpirationsSub (ops.foldl step s) := by
  induction ops generalizing s with
  | nil => exact h
  | cons op rest ih => exact ih _ (stepPreserves s op h)

/-- C10: in every state reachable by any operation sequence from the empty
cache, every key of the expiration map is present in the value store, so
the eviction branches of get and exists only ever delete keys that the
value store contains. -/
theorem C10_expirations_sub_cache {V : Type} (ops : List (ℚ × CacheOp V)) :
    ExpirationsSub (run ops) ∧
    ∀ k e now, (run ops).expirations k = some e → now > e →
      ((run ops).cache k).isSome := by
  have hinv : ExpirationsSub (run ops) := by
    apply runPreserves
    intro k hk
    simp [initState] at hk
  exact ⟨hinv, fun k e _ he _ => hinv k (by simp [he])⟩

/-- closed instance of the C10 invariant after a concrete operation
sequence that exercises set, expire, get and clear. -/
theorem C10_expirations_sub_cache_witness :
    ExpirationsSub (run [((0 : ℚ), CacheOp.setOp "a" (5 : ℕ) (some 10)),
      ((1 : ℚ), CacheOp.expOp "a" 1), ((3 : ℚ), CacheOp.getOp "a"),
      ((4 : ℚ), CacheOp.setOp "ab" 6 none), ((5 : ℚ), CacheOp.clrOp "b")]) ∧
    ((run [((0 : ℚ), CacheOp.setOp "a" (5 : ℕ) (some 10)),
      ((1 : ℚ), CacheOp.expOp "a" 1), ((3 : ℚ), CacheOp.getOp "a"),
      ((4 : ℚ), CacheOp.setOp "ab" 6 none), ((5 : ℚ), CacheOp.clrOp "b")]).expirations "a" =
        some 2 → (6 : ℚ) > 2 →
      ((run [((0 : ℚ), CacheOp.setOp "a" (5 : ℕ) (some 10)),
        ((1 : ℚ), CacheOp.expOp "a" 1), ((3 : ℚ), CacheOp.getOp "a"),
        ((4 : ℚ), CacheOp.setOp "ab" 6 none), ((5 : ℚ), CacheOp.clrOp "b")]).cache "a").isSome) :=
  ⟨(C10_expirations_sub_cache _).1, fun he h6 => (C10_expirations_sub_cache _).2 "a" 2 6 he h6⟩

end Cache

namespace Retention

/-- C3 (code bug): on a database whose notifications table holds a
100-day-old notification (`sent_at = 0`, now = day 100), one retention run
deletes the over-90-day slot event and reports correct counts for the
tables that define `created_at`, but leaves the old notification in place
and reports 0 deleted for notifications, because the DELETE filters on a
`created_at` column the notifications table does not define. -/
theorem C3_retention_notifications_bug :
    apply_retention_policies
      ⟨⟨slot_events_columns, [[("created_at", 0)], [("created_at", 95)]]⟩,
       ⟨audit_logs_columns, [[("created_at", 0)]]⟩,
       ⟨notifications_columns, [[("sent_at", 0)]]⟩⟩ 100 =
    (⟨⟨slot_events_columns, [[("created_at", 95)]]⟩,
      ⟨audit_logs_columns, [[("created_at", 0)]]⟩,
      ⟨notifications_columns, [[("sent_at", 0)]]⟩⟩,
     [("slot_events", 1), ("audit_logs", 0), ("notifications", 0)]) := by
  norm_num [apply_retention_policies, applyPolicy, deleteOldByCreatedAt, rowVal,
    slot_events_columns, audit_logs_columns, notifications_columns, List.filter,
    List.find?]
  constructor <;> rfl

end Retention

namespace Edge

/-- C2 (counterexample): a request to the edge all-slots read with no
X-API-Key header is answered with the slot data, not with HTTP 401 — the
two edge read handlers declare no API-key dependency. -/
theorem C2_counterexample :
    (get_all_slots_edge none (some [⟨"s1", false, 1⟩]) ⟨["s1"], []⟩).1 =
      Resp.ok [⟨"s1", false, 1⟩] ∧
    (get_all_slots_edge none (some [⟨"s1", false, 1⟩]) ⟨["s1"], []⟩).1 ≠
      Resp.err 401 := by
  decide

/-- C2 (amended): only the edge status-push write requires the X-API-Key
header — a missing or empty header fails 401 and a mismatched header fails
403, each before any status is written — while the two edge read endpoints
never consult the header. -/
theorem C2_edge_auth (header : Option String) (secret : String) (slot_id : String)
    (body : UpdateBody) (db : EdgeDB) (now : ℚ) :
    (header = none →
      update_slot_status_edge header secret slot_id body db now = (.err 401, db)) ∧
    (header = some "" →
      update_slot_status_edge header secret slot_id body db now = (.err 401, db)) ∧
    (∀ key, header = some key → key ≠ "" → key ≠ secret →
      update_slot_status_edge header secret slot_id body db now = (.err 403, db)) ∧
    (∀ h2 cached, get_all_slots_edge header cached db = get_all_slots_edge h2 cached db) ∧
    (∀ h2 sid cached,
      get_slot_by_id_edge header sid cached db = get_slot_by_id_edge h2 sid cached db) := by
  refine ⟨?_, ?_, ?_, ?_, ?_⟩
  · rintro rfl
    simp [update_slot_status_edge, check_edge_api_key]
  · rintro rfl
    simp [update_slot_status_edge, check_edge_api_key]
  · rintro key rfl hne hsec
    simp [update_slot_status_edge, check_edge_api_key, hne, hsec]
  · intro h2 cached
    cases cached <;> rfl
  · intro h2 sid cached
    cases cached <;> rfl

/-- closed instance of the C2 amendment at concrete inputs. -/
theorem C2_edge_auth_witness :
    update_slot_status_edge none "sec" "s1" ⟨some true, 1, "car"⟩ ⟨["s1"], []⟩ 0 =
      (.err 401, ⟨["s1"], []⟩) ∧
    update_slot_status_edge (some "bad") "sec" "s1" ⟨some true, 1, "car"⟩ ⟨["s1"], []⟩ 0 =
      (.err 403, ⟨["s1"], []⟩) :=
  ⟨(C2_edge_auth none "sec" "s1" ⟨some true, 1, "car"⟩ ⟨["s1"], []⟩ 0).1 rfl,
   (C2_edge_auth (some "bad") "sec" "s1" ⟨some true, 1, "car"⟩ ⟨["s1"], []⟩ 0).2.2.1 "bad"
     rfl (by decide) (by decide)⟩

end Edge

namespace Bookings

theorem find_updateReserved (l : List (String × SlotStatusRow)) (sid : String) (hu : ℚ) :
    (updateReserved l sid hu).find? (fun p => p.1 = sid) =
      (l.find? (fun p => p.1 = sid)).map
        (fun p => (p.1, { p.2 with reserved_until := some hu })) := by
  induction l with
  | nil => rfl
  | cons a rest ih =>
    by_cases ha : a.1 = sid
    · simp [updateReserved, List.find?, ha]
    · simp only [updateReserved, List.map_cons] at ih ⊢
      simp [List.find?, ha, ih]

/-- C1: the hold handler fails 429 with nothing read or written when the
per-slot mutex is held; otherwise it releases the mutex on every path and,
inside the transaction, fails 404 on an unknown slot, fails 409 without a
booking insert when the reservation is still in the future or the slot is
occupied, and otherwise inserts exactly one holding booking with
`hold_until = now + hold_minutes`, sets the reservation to that instant,
and reports the booking id and hold-until. -/
theorem C1_hold_slot_spec (locks : LockMap) (db : DB) (now : ℚ) (req : HoldRequest)
    (newId : String) :
    (locks req.slot_id = true →
      hold_slot locks db now req newId = (.tryAgain, db, locks)) ∧
    (locks req.slot_id = false →
      (hold_slot locks db now req newId).2.2 req.slot_id = false ∧
      ∀ k, k ≠ req.slot_id → (hold_slot locks db now req newId).2.2 k = locks k) ∧
    (locks req.slot_id = false → lookupStatus db req.slot_id = none →
      (hold_slot locks db now req newId).1 = .slotNotFound ∧
      (hold_slot locks db now req newId).2.1 = db) ∧
    (∀ row, locks req.slot_id = false → lookupStatus db req.slot_id = some row →
      reservedInFuture row now = true →
      (hold_slot locks db now req newId).1 = .alreadyReserved ∧
      (hold_slot locks db now req newId).2.1 = db) ∧
    (∀ row, locks req.slot_id = false → lookupStatus db req.slot_id = some row →
      reservedInFuture row now = false → row.occupied = true →
      (hold_slot locks db now req newId).1 = .occupiedConflict ∧
      (hold_slot locks db now req newId).2.1 = db) ∧
    (∀ row, locks req.slot_id = false → lookupStatus db req.slot_id = some row →
      reservedInFuture row now = false → row.occupied = false →
      (hold_slot locks db now req newId).1 = .success newId (now + req.hold_minutes) ∧
      (hold_slot locks db now req newId).2.1.bookings = db.bookings ++
        [⟨newId, req.user_id, req.slot_id, "holding", now + req.hold_minutes⟩] ∧
      lookupStatus (hold_slot locks db now req newId).2.1 req.slot_id =
        some { row with reserved_until := some (now + req.hold_minutes) }) := by
  refine ⟨?_, ?_, ?_, ?_, ?_, ?_⟩
  · intro h
    simp [hold_slot, acquireSlotLock, h]
  · intro h
    constructor
    · simp [hold_slot, acquireSlotLock, h, releaseSlotLock]
    · intro k hk
      simp [hold_slot, acquireSlotLock, h, releaseSlotLock, hk]
  · intro h hlook
    simp [hold_slot, acquireSlotLock, h, hlook]
  · intro row h hlook hres
    simp [hold_slot, acquireSlotLock, h, hlook, hres]
  · intro row h hlook hres hocc
    simp [hold_slot, acquireSlotLock, h, hlook, hres, hocc]
  · intro row h hlook hres hocc
    have hfind := find_updateReserved db.slot_status req.slot_id (now + req.hold_minutes)
    simp only [lookupStatus] at hlook
    obtain ⟨p, hp, hp2⟩ := Option.map_eq_some'.mp hlook
    rcases hu : req.user_id with _ | u <;>
      simp [hold_slot, acquireSlotLock, h, lookupStatus, hlook, hres, hocc, hu,
        hfind, hp, hp2]

/-- closed instance of the C1 success path at concrete inputs. -/
theorem C1_hold_slot_spec_witness :
    (hold_slot (fun _ => false) ⟨[("s1", ⟨false, none⟩)], [], []⟩ 0
      ⟨"s1", 2, some "u"⟩ "b1").1 = .success "b1" (0 + 2) ∧
    (hold_slot (fun _ => false) ⟨[("s1", ⟨false, none⟩)], [], []⟩ 0
      ⟨"s1", 2, some "u"⟩ "b1").2.1.bookings =
      [] ++ [⟨"b1", some "u", "s1", "holding", 0 + 2⟩] ∧
    lookupStatus (hold_slot (fun _ => false) ⟨[("s1", ⟨false, none⟩)], [], []⟩ 0
      ⟨"s1", 2, some "u"⟩ "b1").2.1 "s1" = some ⟨false, some (0 + 2)⟩ := by
  have h := (C1_hold_slot_spec (fun _ => false) ⟨[("s1", ⟨false, none⟩)], [], []⟩ 0
    ⟨"s1", 2, some "u"⟩ "b1").2.2.2.2.2 ⟨false, none⟩ rfl
    (by simp [lookupStatus, List.find?]) rfl rfl
  exact h

/-- C9 (amended): a successful hold made with a user id appends exactly one
booking-creation audit record before the response; a successful hold with
no user id appends none. -/
theorem C9_hold_audit (locks : LockMap) (db : DB) (now : ℚ) (req : HoldRequest)
    (newId bid : String) (hu : ℚ) :
    (hold_slot locks db now req newId).1 = .success bid hu →
    ((∀ u, req.user_id = some u →
        (hold_slot locks db now req newId).2.1.audit_logs =
          db.audit_logs ++ [⟨some u, "create_booking", "booking", newId⟩]) ∧
      (req.user_id = none →
        (hold_slot locks db now req newId).2.1.audit_logs = db.audit_logs)) := by
  cases hacq : acquireSlotLock locks req.slot_id with
  | none => intro hs; simp [hold_slot, hacq] at hs
  | some l1 =>
    cases hlook : lookupStatus db req.slot_id with
    | none => intro hs; simp [hold_slot, hacq, hlook] at hs
    | some row =>
      by_cases hres : reservedInFuture row now
      · intro hs; simp [hold_slot, hacq, hlook, hres] at hs
      · by_cases hocc : row.occupied
        · intro hs; simp [hold_slot, hacq, hlook, hres, hocc] at hs
        · intro _
          constructor
          · intro u hu2
            simp [hold_slot, hacq, hlook, hres, hocc, hu2]
          · intro hu2
            simp [hold_slot, hacq, hlook, hres, hocc, hu2]

/-- closed instance of the amended C9 at concrete inputs: with a user id
the audit record is appended. -/
theorem C9_hold_audit_witness :
    (hold_slot (fun _ => false) ⟨[("s1", ⟨false, none⟩)], [], []⟩ 0
      ⟨"s1", 2, some "u"⟩ "b2").2.1.audit_logs =
      [] ++ [⟨some "u", "create_booking", "booking", "b2"⟩] :=
  (C9_hold_audit (fun _ => false) ⟨[("s1", ⟨false, none⟩)], [], []⟩ 0
    ⟨"s1", 2, some "u"⟩ "b2" "b2" (0 + 2)
    (by simp [hold_slot, acquireSlotLock, lookupStatus, reservedInFuture,
      List.find?])).1 "u" rfl

/-- C9 (counterexample): a hold with no user id succeeds yet appends no
audit-log record, because the handler logs only under `if req.user_id`. -/
theorem C9_counterexample :
    (hold_slot (fun _ => false) ⟨[("s1", ⟨false, none⟩)], [], []⟩ 0
      ⟨"s1", 2, none⟩ "b1").1 = .success "b1" 2 ∧
    (hold_slot (fun _ => false) ⟨[("s1", ⟨false, none⟩)], [], []⟩ 0
      ⟨"s1", 2, none⟩ "b1").2.1.audit_logs = [] := by
  norm_num [hold_slot, acquireSlotLock, lookupStatus, reservedInFuture, List.find?]

end Bookings

namespace Violations

theorem activeCount_le_length (l : List ViolationRow) (s t : String) :
    activeCount l s t ≤ l.length :=
  List.length_filter_le _ _

theorem activeCount_append (l1 l2 : List ViolationRow) (s t : String) :
    activeCount (l1 ++ l2) s t = activeCount l1 s t + activeCount l2 s t := by
  simp [activeCount, List.filter_append]

theorem activeCount_of_find_none (l : List ViolationRow) (v : ViolationDict)
    (h : l.find? (activeMatch v) = none) :
    activeCount l v.slot_id v.violation_type = 0 := by
  simp only [activeCount, List.length_eq_zero, List.filter_eq_nil_iff]
  intro r hr
  have hnot := List.find?_eq_none.mp h r hr
  simpa [activeMatch] using hnot

theorem activeCount_refresh (l : List ViolationRow) (eid : String) (now : ℚ)
    (md : Option String) (s t : String) :
    activeCount (l.map fun r => if r.id = eid then
      { r with detected_at := now, updated_at := now, metadata := md } else r) s t =
    activeCount l s t := by
  induction l with
  | nil => rfl
  | cons a rest ih =>
    simp only [activeCount, List.map_cons, List.filter_cons] at ih ⊢
    by_cases ha : a.id = eid <;>
      by_cases hm : (a.slot_id = s ∧ a.violation_type = t ∧ a.status = "active") <;>
        simpa [ha, hm] using ih

/-- C4: recording a violation preserves at-most-one-active per
(slot, type); an existing active match is refreshed in place (same row
count, same audit log, only detected/updated/metadata touched) and
reported not-new; otherwise exactly one new active row is inserted, an
audit record is appended, and it is reported new. -/
theorem C4_record_violation (db : ViolDB) (v : ViolationDict) (now : ℚ)
    (newId : String) :
    (AtMostOneActive db.violations →
      AtMostOneActive (record_violation db v now newId).1.violations) ∧
    (∀ existing, db.violations.find? (activeMatch v) = some existing →
      (record_violation db v now newId).2 = ⟨existing.id, false⟩ ∧
      (record_violation db v now newId).1.violations.length = db.violations.length ∧
      (record_violation db v now newId).1.audit_logs = db.audit_logs ∧
      (record_violation db v now newId).1.violations =
        db.violations.map (fun r => if r.id = existing.id then
          { r with detected_at := now, updated_at := now, metadata := v.metadata }
        else r)) ∧
    (db.violations.find? (activeMatch v) = none →
      (record_violation db v now newId).2 = ⟨newId, true⟩ ∧
      (record_violation db v now newId).1.violations = db.violations ++
        [⟨newId, v.violation_type, v.slot_id, v.severity, "active", now, now,
          v.metadata⟩] ∧
      (record_violation db v now newId).1.audit_logs =
        db.audit_logs ++ [⟨"violation_detected", "violation", newId⟩]) := by
  refine ⟨?_, ?_, ?_⟩
  · intro h s t
    cases hfind : db.violations.find? (activeMatch v) with
    | some existing =>
      simp only [record_violation, hfind]
      rw [activeCount_refresh]
      exact h s t
    | none =>
      simp only [record_violation, hfind]
      rw [activeCount_append]
      by_cases hst : s = v.slot_id ∧ t = v.violation_type
      · obtain ⟨hs1, hs2⟩ := hst
        subst hs1; subst hs2
        rw [activeCount_of_find_none db.violations v hfind]
        simpa using activeCount_le_length _ _ _
      · have hnew : ¬ (v.slot_id = s ∧ v.violation_type = t ∧
            ("active" : String) = "active") := by
          rintro ⟨h1, h2, _⟩
          exact hst ⟨h1.symm, h2.symm⟩
        have hz : activeCount [(⟨newId, v.violation_type, v.slot_id, v.severity,
            "active", now, now, v.metadata⟩ : ViolationRow)] s t = 0 := by
          rcases not_and_or.mp hst with h1 | h2
          · have hv : ¬ (v.slot_id = s) := fun hh => h1 hh.symm
            simp [activeCount, List.filter, hv]
          · have hv : ¬ (v.violation_type = t) := fun hh => h2 hh.symm
            simp [activeCount, List.filter, hv]
        rw [hz]
        simpa using h s t
  · intro existing hfind
    simp [record_violation, hfind]
  · intro hfind
    simp [record_violation, hfind]

/-- closed instance of C4 at a concrete database: a matching active row is
refreshed, not duplicated, and the invariant holds afterwards. -/
theorem C4_record_violation_witness :
    AtMostOneActive (record_violation
      ⟨[⟨"v0", "overstay", "s1", "low", "active", 0, 0, none⟩], []⟩
      ⟨"overstay", "s1", "low", some "m"⟩ 5 "v1").1.violations ∧
    (record_violation ⟨[⟨"v0", "overstay", "s1", "low", "active", 0, 0, none⟩], []⟩
      ⟨"overstay", "s1", "low", some "m"⟩ 5 "v1").2 = ⟨"v0", false⟩ := by
  have h := C4_record_violation
    ⟨[⟨"v0", "overstay", "s1", "low", "active", 0, 0, none⟩], []⟩
    ⟨"overstay", "s1", "low", some "m"⟩ 5 "v1"
  refine ⟨h.1 ?_, (h.2.1 ⟨"v0", "overstay", "s1", "low", "active", 0, 0, none⟩ ?_).1⟩
  · intro s t
    exact le_trans (activeCount_le_length _ s t) (by simp)
  · simp [activeMatch, List.find?]

end Violations

namespace Occupancy

theorem foldOcc_eq_spec (end_time : ℚ) (l : List SlotEvent) :
    ∀ (m : ℚ) (b : Bool) (t : ℚ),
    (if (l.foldl occStep (m, b, t)).2.1 then
        (l.foldl occStep (m, b, t)).1 + (end_time - (l.foldl occStep (m, b, t)).2.2)
      else (l.foldl occStep (m, b, t)).1) =
    m + specOccupiedMinutes end_time l b t := by
  induction l with
  | nil =>
    intro m b t
    cases b <;> simp [specOccupiedMinutes]
  | cons e rest ih =>
    intro m b t
    by_cases he : e.event_type ∈ entry_event_types
    · cases b with
      | true => simp [occStep, specOccupiedMinutes, he, ih]
      | false => simp [occStep, specOccupiedMinutes, he, ih]
    · by_cases hx : e.event_type ∈ exit_event_types
      · cases b with
        | true =>
          simp [occStep, specOccupiedMinutes, he, hx, ih]
          ring
        | false => simp [occStep, specOccupiedMinutes, he, hx, ih]
      · simp [occStep, specOccupiedMinutes, he, hx, ih]

/-- C5: for every window with end after start, the reconstructed occupancy
percentage equals the specification's chronological interval scan —
started vacant, entry-class events opening an interval only when none is
open, exit-class events closing and accumulating, a still-open interval
truncated at the window end, the ratio times 100 clamped to [0,100] — and
a window with no events yields exactly 0. -/
theorem C5_occupancy_eq_spec (events : List SlotEvent) (start_time end_time : ℚ)
    (h : start_time < end_time) :
    calculate_slot_occupancy_percentage events start_time end_time =
      specOccupancyPercentage events start_time end_time ∧
    calculate_slot_occupancy_percentage [] start_time end_time = 0 := by
  constructor
  · cases events with
    | nil => simp [calculate_slot_occupancy_percentage, specOccupancyPercentage]
    | cons e0 rest =>
      have hfold := foldOcc_eq_spec end_time (e0 :: rest) 0 false start_time
      have htot : (0 : ℚ) < end_time - start_time := by linarith
      simp only [calculate_slot_occupancy_percentage, specOccupancyPercentage,
        List.isEmpty_cons, if_false, Bool.false_eq_true, reduceCtorEq, htot, if_true,
        zero_add] at hfold ⊢
      rw [hfold]
  · simp [calculate_slot_occupancy_percentage]

/-- closed instance of C5: the 60-minute window with a single entry event
at minute 10 and the empty window. -/
theorem C5_occupancy_eq_spec_witness :
    calculate_slot_occupancy_percentage [⟨"entry", 10⟩] 0 60 =
      specOccupancyPercentage [⟨"entry", 10⟩] 0 60 ∧
    calculate_slot_occupancy_percentage [] 0 60 = 0 :=
  C5_occupancy_eq_spec [⟨"entry", 10⟩] 0 60 (by norm_num)

end Occupancy

namespace Anpr

theorem foldBest_mem : ∀ (rest : List (String × ℚ)) (r : String × ℚ),
    rest.foldl (fun acc x => if acc.2 < x.2 then x else acc) r = r ∨
    rest.foldl (fun acc x => if acc.2 < x.2 then x else acc) r ∈ rest := by
  intro rest
  induction rest with
  | nil => intro r; simp
  | cons a l ih =>
    intro r
    simp only [List.foldl_cons]
    rcases ih (if r.2 < a.2 then a else r) with h | h
    · by_cases hc : r.2 < a.2
      · right
        rw [h]
        simp [hc]
      · left
        rw [h]
        simp [hc]
    · right
      exact List.mem_cons_of_mem _ h

theorem pickBest_mem (l : List (String × ℚ)) (h : ¬ l.isEmpty) : pickBest l ∈ l := by
  cases l with
  | nil => simp at h
  | cons a rest =>
    rcases foldBest_mem rest a with h2 | h2
    · simp only [pickBest, h2]
      exact List.mem_cons_self a rest
    · exact List.mem_cons_of_mem a h2

/-- C6: every plate the pipeline keeps is the recognized text uppercased
with non-alphanumerics stripped, from a kept OCR result, and at least 4
characters; format validation accepts exactly the 4–10 character purely
alphanumeric non-numeric texts; and a plate failing format validation is
still reported with its confidence multiplied by 0.7, while a valid plate
keeps its confidence. -/
theorem C6_plate_pipeline :
    (∀ results t c, extract_plate_text results = some (t, c) →
      (∃ r ∈ results, (1 : ℚ)/2 < r.2 ∧ c = r.2 ∧ t = normalizePlate r.1) ∧
        4 ≤ t.length) ∧
    (∀ s : String, validate_plate_format s = true ↔
      (4 ≤ s.length ∧ s.length ≤ 10 ∧ (∀ ch ∈ s.data, ch.isAlphanum = true) ∧
        ¬ (∀ ch ∈ s.data, ch.isDigit = true))) ∧
    (∀ results t c, extract_plate_text results = some (t, c) →
      validate_plate_format t = false →
      process_vehicle_for_plate results = some (t, c * (7/10))) ∧
    (∀ results t c, extract_plate_text results = some (t, c) →
      validate_plate_format t = true →
      process_vehicle_for_plate results = some (t, c)) := by
  refine ⟨?_, ?_, ?_, ?_⟩
  · intro results t c hx
    simp only [extract_plate_text] at hx
    split_ifs at hx with g1 g2 g3
    simp only [Option.some.injEq, Prod.mk.injEq] at hx
    obtain ⟨ht, hc⟩ := hx
    have hmem := pickBest_mem _ g2
    have hmem2 := List.mem_filter.mp hmem
    push_neg at g3
    exact ⟨⟨pickBest (results.filter fun r => (1 : ℚ)/2 < r.2), hmem2.1,
      by simpa using hmem2.2, hc.symm, ht.symm⟩, by rw [← ht]; exact g3⟩
  · intro s
    constructor
    · intro h
      simp only [validate_plate_format] at h
      split_ifs at h with g1 g2 g3 g4 g5
      simp only [Bool.or_eq_true, decide_eq_true_eq, not_or, not_lt] at g2
      exact ⟨by omega, by omega,
        fun ch hch => List.all_eq_true.mp g3 ch hch,
        fun hall => g4 (List.all_eq_true.mpr hall)⟩
    · rintro ⟨h4, h10, hal, hdig⟩
      have g1b : ¬ s.length = 0 := by omega
      have d1 : decide (s.length < 4) = false := by
        simp only [decide_eq_false_iff_not]
        omega
      have d2 : decide (10 < s.length) = false := by
        simp only [decide_eq_false_iff_not]
        omega
      have g3b : s.data.all Char.isAlphanum = true := List.all_eq_true.mpr hal
      have g4b : ¬ s.data.all Char.isDigit = true := fun hh =>
        hdig (List.all_eq_true.mp hh)
      have g5b : ¬ s.length = 1 := by omega
      simp [validate_plate_format, g1b, d1, d2, g3b, g4b, g5b]
  · intro results t c hx hv
    simp [process_vehicle_for_plate, hx, hv]
  · intro results t c hx hv
    simp [process_vehicle_for_plate, hx, hv]

/-- closed instance of C6: a valid plate keeps its confidence, a purely
numeric plate is still reported with the 0.7 penalty, and the validator
decides both. -/
theorem C6_plate_pipeline_witness :
    process_vehicle_for_plate [("AB12", 1)] = some ("AB12", 1) ∧
    process_vehicle_for_plate [("1234", 1)] = some ("1234", 1 * (7/10)) ∧
    (validate_plate_format "AB12" = true ↔
      (4 ≤ "AB12".length ∧ "AB12".length ≤ 10 ∧
        (∀ ch ∈ "AB12".data, ch.isAlphanum = true) ∧
        ¬ (∀ ch ∈ "AB12".data, ch.isDigit = true))) := by
  have h12 : decide ((2 : ℚ)⁻¹ < 1) = true := by norm_num
  have hx1 : extract_plate_text [("AB12", 1)] = some ("AB12", 1) := by
    have hn : normalizePlate "AB12" = "AB12" := by decide
    simp [extract_plate_text, List.filter, h12, pickBest, hn]
    decide
  have hx2 : extract_plate_text [("1234", 1)] = some ("1234", 1) := by
    have hn : normalizePlate "1234" = "1234" := by decide
    simp [extract_plate_text, List.filter, h12, pickBest, hn]
    decide
  exact ⟨C6_plate_pipeline.2.2.2 [("AB12", 1)] "AB12" 1 hx1 (by decide),
    C6_plate_pipeline.2.2.1 [("1234", 1)] "1234" 1 hx2 (by decide),
    C6_plate_pipeline.2.1 "AB12"⟩

end Anpr

namespace CV

theorem spotFold_spec (member : Detection → Bool) (l : List Detection) :
    ∀ (b : Bool) (c : ℚ) (v : String),
    ((∀ d ∈ l, member d = true → d.confidence ≤ c) →
      l.foldl (spotStep member) (b, c, v) = (b, c, v)) ∧
    ((∃ d ∈ l, member d = true ∧ c < d.confidence) →
      (l.foldl (spotStep member) (b, c, v)).1 = true ∧
      (∃ d ∈ l, member d = true ∧
        d.confidence = (l.foldl (spotStep member) (b, c, v)).2.1 ∧
        (l.foldl (spotStep member) (b, c, v)).2.2 = vehicle_type_of d.class_id) ∧
      (∀ d ∈ l, member d = true →
        d.confidence ≤ (l.foldl (spotStep member) (b, c, v)).2.1) ∧
      c ≤ (l.foldl (spotStep member) (b, c, v)).2.1) := by
  induction l with
  | nil =>
    intro b c v
    exact ⟨fun _ => rfl, fun h => absurd h (by simp)⟩
  | cons d rest ih =>
    intro b c v
    constructor
    · intro hall
      have hstep : spotStep member (b, c, v) d = (b, c, v) := by
        by_cases hm : member d = true
        · have hle : ¬ c < d.confidence := not_lt.mpr (hall d (by simp) hm)
          simp [spotStep, hm, hle]
        · simp [spotStep, hm]
      rw [List.foldl_cons, hstep]
      exact (ih b c v).1 (fun x hx hmx => hall x (by simp [hx]) hmx)
    · rintro ⟨d0, hd0mem, hd0m, hd0c⟩
      rw [List.foldl_cons]
      by_cases hm : member d = true ∧ c < d.confidence
      · have hstep : spotStep member (b, c, v) d =
            (true, d.confidence, vehicle_type_of d.class_id) := by
          simp [spotStep, hm.1, hm.2]
        rw [hstep]
        by_cases hbig : ∃ x ∈ rest, member x = true ∧ d.confidence < x.confidence
        · have h2 := (ih true d.confidence (vehicle_type_of d.class_id)).2 hbig
          refine ⟨h2.1, ?_, ?_, le_trans (le_of_lt hm.2) h2.2.2.2⟩
          · obtain ⟨x, hx1, hx2, hx3, hx4⟩ := h2.2.1
            exact ⟨x, by simp [hx1], hx2, hx3, hx4⟩
          · intro x hx hmx
            rcases List.mem_cons.mp hx with rfl | hx
            · exact h2.2.2.2
            · exact h2.2.2.1 x hx hmx
        · push_neg at hbig
          have h1 := (ih true d.confidence (vehicle_type_of d.class_id)).1
            (fun x hx hmx => hbig x hx hmx)
          rw [h1]
          refine ⟨rfl, ⟨d, by simp, hm.1, rfl, rfl⟩, ?_, le_of_lt hm.2⟩
          intro x hx hmx
          rcases List.mem_cons.mp hx with rfl | hx
          · exact le_refl _
          · exact hbig x hx hmx
      · have hstep : spotStep member (b, c, v) d = (b, c, v) := by
          simp only [spotStep]
          rw [if_neg]
          intro hc
          exact hm ⟨hc.1, hc.2⟩
        rw [hstep]
        have hd0rest : d0 ∈ rest := by
          rcases List.mem_cons.mp hd0mem with rfl | hh
          · exact absurd ⟨hd0m, hd0c⟩ hm
          · exact hh
        have h2 := (ih b c v).2 ⟨d0, hd0rest, hd0m, hd0c⟩
        refine ⟨h2.1, ?_, ?_, h2.2.2.2⟩
        · obtain ⟨x, hx1, hx2, hx3, hx4⟩ := h2.2.1
          exact ⟨x, by simp [hx1], hx2, hx3, hx4⟩
        · intro x hx hmx
          rcases List.mem_cons.mp hx with rfl | hx
          · have hxc : x.confidence ≤ c := not_lt.mp (fun hcc => hm ⟨hmx, hcc⟩)
            exact le_trans hxc h2.2.2.2
          · exact h2.2.2.1 x hx hmx

/-- C7: for detections surviving the 0.5-confidence detector floor, a spot
with at least one in-spot detection center is reported occupied with the
maximal in-spot confidence and the mapped vehicle-type label of a
detection attaining it; a spot with no in-spot detection center is
reported vacant with confidence exactly max(0.8, 1 − 0.05·N) for N the
total detections in the frame. -/
theorem C7_spot_occupancy (shape : SpotShape) (detections : List Detection)
    (hconf : ∀ d ∈ detections, (1 : ℚ)/2 < d.confidence) :
    ((∃ d ∈ detections, inSpot shape d = true) →
      (process_parking_occupancy shape detections).1 = true ∧
      (∃ d ∈ detections, inSpot shape d = true ∧
        d.confidence = (process_parking_occupancy shape detections).2.1 ∧
        (process_parking_occupancy shape detections).2.2 =
          vehicle_type_of d.class_id) ∧
      (∀ d ∈ detections, inSpot shape d = true →
        d.confidence ≤ (process_parking_occupancy shape detections).2.1)) ∧
    ((∀ d ∈ detections, inSpot shape d = false) →
      process_parking_occupancy shape detections =
        (false, vacant_confidence detections.length, "unknown")) := by
  constructor
  · rintro ⟨d0, hmem, hins⟩
    have hpos : (0 : ℚ) < d0.confidence :=
      lt_trans (by norm_num) (hconf d0 hmem)
    have h2 := (spotFold_spec (inSpot shape) detections false 0 "unknown").2
      ⟨d0, hmem, hins, hpos⟩
    have hocc : (is_parking_spot_occupied shape detections).1 = true := h2.1
    have hproc : process_parking_occupancy shape detections =
        is_parking_spot_occupied shape detections := by
      simp [process_parking_occupancy, hocc]
    rw [hproc]
    exact ⟨h2.1, h2.2.1, h2.2.2.1⟩
  · intro hnone
    have h1 := (spotFold_spec (inSpot shape) detections false 0 "unknown").1
      (fun d hd hm => absurd hm (by simp [hnone d hd]))
    simp [process_parking_occupancy, is_parking_spot_occupied, h1]

/-- closed instance of C7: a car detection centered in a rectangular spot
marks it occupied at that confidence and label, and a frame whose only
detection is outside the spot reports vacant with the heuristic
confidence. -/
theorem C7_spot_occupancy_witness :
    ((process_parking_occupancy (.rect 0 0 10 10) [⟨2, 1, 5, 5⟩]).1 = true ∧
      (∃ d ∈ [(⟨2, 1, 5, 5⟩ : Detection)], inSpot (.rect 0 0 10 10) d = true ∧
        d.confidence = (process_parking_occupancy (.rect 0 0 10 10) [⟨2, 1, 5, 5⟩]).2.1 ∧
        (process_parking_occupancy (.rect 0 0 10 10) [⟨2, 1, 5, 5⟩]).2.2 =
          vehicle_type_of d.class_id) ∧
      (∀ d ∈ [(⟨2, 1, 5, 5⟩ : Detection)], inSpot (.rect 0 0 10 10) d = true →
        d.confidence ≤ (process_parking_occupancy (.rect 0 0 10 10) [⟨2, 1, 5, 5⟩]).2.1)) ∧
    process_parking_occupancy (.rect 0 0 10 10) [⟨2, 1, 50, 50⟩] =
      (false, vacant_confidence 1, "unknown") := by
  have hconf1 : ∀ d ∈ [(⟨2, 1, 5, 5⟩ : Detection)], (1 : ℚ)/2 < d.confidence := by
    intro d hd
    simp only [List.mem_singleton] at hd
    subst hd
    norm_num
  have hconf2 : ∀ d ∈ [(⟨2, 1, 50, 50⟩ : Detection)], (1 : ℚ)/2 < d.confidence := by
    intro d hd
    simp only [List.mem_singleton] at hd
    subst hd
    norm_num
  constructor
  · refine (C7_spot_occupancy (.rect 0 0 10 10) [⟨2, 1, 5, 5⟩] hconf1).1
      ⟨⟨2, 1, 5, 5⟩, by simp, ?_⟩
    simp only [inSpot, decide_eq_true_eq]
    norm_num
  · refine (C7_spot_occupancy (.rect 0 0 10 10) [⟨2, 1, 50, 50⟩] hconf2).2 ?_
    intro d hd
    simp only [List.mem_singleton] at hd
    subst hd
    simp only [inSpot, decide_eq_false_iff_not]
    norm_num

end CV

end ParkWise
